import Mathlib

/-
Verification of the deep-research orchestration core.

Shallow embedding of the JavaScript sources:
  - src/src/2_research_agent.js        (graph research agent: invokeWithRetry, llm_call,
                                        tool_node, compress_research)
  - src/src/2_research_agent_lean.js   (while-loop sub-agent)
  - src/src/4_research_supervisor.js   (conductResearch sub-agent, runSupervisor)
  - src/src/5_full_agent_manual.js     (manual tool selection variant)
  - src/src/1_scoping_lean.js          (clarification stage)
  - src/unnamed/part_000               (full pipeline: verifyRequest, runResearch, ...)
  - src/unnamed/part_001               (graph researcher: toolNode, compressResearch)
  - src/unnamed/part_003               (second module: unguarded tool_node)

Model responses, tool implementations and completion schedules are oracle
parameters; machine strings are Lean String values; JS exceptions are the
error case of Except.  While-loops are embedded as structurally recursive
functions on a fuel argument; the top-level entry points pass fuel larger
than the loop bound, which suffices because every recursive call increments
the iteration counter that the loop guard compares against its maximum.
-/

/-- A tool call descriptor as emitted in a model response:
id, tool name, arguments (the arguments object is modelled as one string). -/
structure ToolCall where
  id : String
  name : String
  args : String
deriving DecidableEq, Repr

/-- A conversation turn: HumanMessage, SystemMessage, AIMessage (with its
tool_calls array) or ToolMessage (name, tool_call_id, content). -/
inductive Msg where
  | human (content : String)
  | system (content : String)
  | ai (content : String) (tool_calls : List ToolCall)
  | toolMsg (name : String) (tool_call_id : String) (content : String)
deriving DecidableEq, Repr

/-- The content field common to all message kinds. -/
def Msg.content : Msg → String
  | .human c => c
  | .system c => c
  | .ai c _ => c
  | .toolMsg _ _ c => c

/-- Whether the turn is a ToolMessage. -/
def Msg.isToolMsg : Msg → Bool
  | .toolMsg _ _ _ => true
  | _ => false

/-- The tool_call_id of a ToolMessage (empty for other kinds). -/
def Msg.toolCallId : Msg → String
  | .toolMsg _ i _ => i
  | _ => ""

/-- The tool_calls carried by an AIMessage (empty for other kinds). -/
def Msg.toolCalls : Msg → List ToolCall
  | .ai _ tcs => tcs
  | _ => []

/-- JS Array.prototype.join with a separator string. -/
def joinSep (sep : String) : List String → String
  | [] => ""
  | [x] => x
  | x :: y :: rest => x ++ sep ++ joinSep sep (y :: rest)

theorem strAppendAssoc (a b c : String) : a ++ b ++ c = a ++ (b ++ c) := by
  cases a with
  | mk da =>
    cases b with
    | mk db =>
      cases c with
      | mk dc =>
        show String.mk (da ++ db ++ dc) = String.mk (da ++ (db ++ dc))
        rw [List.append_assoc]

theorem strEmptyAppend (a : String) : "" ++ a = a := by
  cases a with
  | mk da => show String.mk ([] ++ da) = String.mk da; rw [List.nil_append]

theorem strAppendEmpty (a : String) : a ++ "" = a := by
  cases a with
  | mk da => show String.mk (da ++ []) = String.mk da; rw [List.append_nil]

/-- Every element of a joined list reappears as an exact substring of the join. -/
theorem joinSep_split (sep : String) (l : List String) (x : String) (hx : x ∈ l) :
    ∃ p s, joinSep sep l = p ++ x ++ s := by
  induction l with
  | nil => cases hx
  | cons y ys ih =>
    rcases List.mem_cons.mp hx with hxy | hmem
    · subst hxy
      cases ys with
      | nil =>
        exact ⟨"", "", by rw [strEmptyAppend, strAppendEmpty]; rfl⟩
      | cons z zs =>
        refine ⟨"", sep ++ joinSep sep (z :: zs), ?_⟩
        rw [strEmptyAppend]
        show x ++ sep ++ joinSep sep (z :: zs) = x ++ (sep ++ joinSep sep (z :: zs))
        rw [strAppendAssoc]
    · cases ys with
      | nil => cases hmem
      | cons z zs =>
        obtain ⟨p, s, hps⟩ := ih hmem
        refine ⟨y ++ sep ++ p, s, ?_⟩
        show y ++ sep ++ joinSep sep (z :: zs) = y ++ sep ++ p ++ x ++ s
        rw [hps, strAppendAssoc p x s, strAppendAssoc (y ++ sep ++ p) x s,
            strAppendAssoc (y ++ sep) p (x ++ s)]

/-
Model Gateway retry wrapper, src/src/2_research_agent.js lines 38-50.
The k-th element of the outcomes list is what the k-th model.invoke attempt
would produce (ok response or thrown error).  The function returns the call
result together with the list of backoff delays awaited, in order; the delay
recorded before the retry following failed attempt i is 2 ^ i * 1000.
The JS check i === retries - 1 (rethrow on the last attempt) corresponds to
the remaining outcome list being a singleton.
-/
def retryLoop : List (Except String String) → Nat → Except String String × List Nat
  | [], _ => (Except.error "", [])
  | Except.ok r :: _, _ => (Except.ok r, [])
  | [Except.error e], _ => (Except.error e, [])
  | Except.error _ :: b :: rest, i =>
    ((retryLoop (b :: rest) (i + 1)).1, 2 ^ i * 1000 :: (retryLoop (b :: rest) (i + 1)).2)

/-- invokeWithRetry(model, messages, retries): the attempts oracle gives the
outcome of each successive model.invoke call. -/
def invokeWithRetry (attempts : Nat → Except String String) (retries : Nat) :
    Except String String × List Nat :=
  retryLoop ((List.range retries).map attempts) 0

theorem retryLoop_firstOk (attempts : Nat → Except String String) (errs : Nat → String)
    (r : String) :
    ∀ (m j i : Nat), j < m → attempts (i + j) = Except.ok r →
      (∀ k, k < j → attempts (i + k) = Except.error (errs (i + k))) →
      retryLoop ((List.range' i m).map attempts) i =
        (Except.ok r, (List.range' i j).map (fun k => 2 ^ k * 1000)) := by
  intro m
  induction m with
  | zero => intro j i hj; omega
  | succ m ih =>
    intro j i hj hok herr
    cases j with
    | zero =>
      have h0 : attempts i = Except.ok r := by simpa using hok
      cases m with
      | zero => simp [List.range', retryLoop, h0]
      | succ m2 => simp [List.range', retryLoop, h0]
    | succ j2 =>
      have h0 : attempts i = Except.error (errs i) := by
        have := herr 0 (Nat.succ_pos j2)
        simpa using this
      cases m with
      | zero => omega
      | succ m2 =>
        have hok2 : attempts (i + 1 + j2) = Except.ok r := by
          rw [show i + 1 + j2 = i + (j2 + 1) by omega]; exact hok
        have herr2 : ∀ k, k < j2 → attempts (i + 1 + k) = Except.error (errs (i + 1 + k)) := by
          intro k hk
          rw [show i + 1 + k = i + (k + 1) by omega]
          exact herr (k + 1) (by omega)
        have hrec := ih j2 (i + 1) (by omega) hok2 herr2
        show retryLoop (attempts i :: (List.range' (i + 1) (m2 + 1)).map attempts) i = _
        rw [h0]
        have hcons : (List.range' (i + 1) (m2 + 1)).map attempts =
            attempts (i + 1) :: (List.range' (i + 2) m2).map attempts := by
          simp [List.range']
        rw [hcons] at hrec ⊢
        rw [retryLoop, hrec]
        simp [List.range']

theorem retryLoop_allFail (attempts : Nat → Except String String) (errs : Nat → String) :
    ∀ (m i : Nat), 0 < m →
      (∀ k, k < m → attempts (i + k) = Except.error (errs (i + k))) →
      retryLoop ((List.range' i m).map attempts) i =
        (Except.error (errs (i + (m - 1))), (List.range' i (m - 1)).map (fun k => 2 ^ k * 1000)) := by
  intro m
  induction m with
  | zero => intro i h; omega
  | succ m ih =>
    intro i hpos herr
    have h0 : attempts i = Except.error (errs i) := by
      have := herr 0 (Nat.succ_pos m)
      simpa using this
    cases m with
    | zero => simp [List.range', retryLoop, h0]
    | succ m2 =>
      have herr2 : ∀ k, k < m2 + 1 → attempts (i + 1 + k) = Except.error (errs (i + 1 + k)) := by
        intro k hk
        rw [show i + 1 + k = i + (k + 1) by omega]
        exact herr (k + 1) (by omega)
      have hrec := ih (i + 1) (Nat.succ_pos m2) herr2
      show retryLoop (attempts i :: (List.range' (i + 1) (m2 + 1)).map attempts) i = _
      rw [h0]
      have hcons : (List.range' (i + 1) (m2 + 1)).map attempts =
          attempts (i + 1) :: (List.range' (i + 2) m2).map attempts := by
        simp [List.range']
      rw [hcons] at hrec ⊢
      rw [retryLoop, hrec]
      have harith : i + 1 + (m2 + 1 - 1) = i + (m2 + 1 + 1 - 1) := by omega
      rw [harith]
      simp [List.range']

/-- Claim C4: through the gateway retry wrapper a transiently failing call is
re-attempted up to the retry count (default 5), with a backoff delay of
2 ^ attempt * 1000 awaited after each failed non-final attempt; the first
successful attempt returns its response immediately (no further delays), and
if the final attempt also fails its error propagates to the caller. -/
theorem c4_invokeWithRetry_backoff (attempts : Nat → Except String String)
    (errs : Nat → String) :
    (∀ j r, j < 5 → attempts j = Except.ok r →
      (∀ k, k < j → attempts k = Except.error (errs k)) →
      invokeWithRetry attempts 5 =
        (Except.ok r, (List.range j).map (fun k => 2 ^ k * 1000))) ∧
    ((∀ k, k < 5 → attempts k = Except.error (errs k)) →
      invokeWithRetry attempts 5 =
        (Except.error (errs 4), (List.range 4).map (fun k => 2 ^ k * 1000))) := by
  constructor
  · intro j r hj hok herr
    show retryLoop ((List.range 5).map attempts) 0 = _
    rw [List.range_eq_range']
    have hok0 : attempts (0 + j) = Except.ok r := by simpa using hok
    have herr0 : ∀ k, k < j → attempts (0 + k) = Except.error (errs (0 + k)) := by
      intro k hk; simpa using herr k hk
    rw [retryLoop_firstOk attempts errs r 5 j 0 hj hok0 herr0]
    rw [List.range_eq_range']
  · intro herr
    show retryLoop ((List.range 5).map attempts) 0 = _
    rw [List.range_eq_range']
    have herr0 : ∀ k, k < 5 → attempts (0 + k) = Except.error (errs (0 + k)) := by
      intro k hk; simpa using herr k hk
    rw [retryLoop_allFail attempts errs 5 0 (by omega) herr0]
    rw [List.range_eq_range']

/-- Concrete attempts oracle: the first two attempts throw, the third succeeds. -/
def c4Attempts : Nat → Except String String :=
  fun k => if k < 2 then Except.error ("boom " ++ toString k) else Except.ok "answer"

/-- Concrete error-message oracle matching c4Attempts on its failing attempts. -/
def c4Errs : Nat → String := fun k => "boom " ++ toString k

theorem c4_invokeWithRetry_backoff_witness :
    invokeWithRetry c4Attempts 5 =
      (Except.ok "answer", [2 ^ 0 * 1000, 2 ^ 1 * 1000]) := by
  have herr : ∀ k, k < 2 → c4Attempts k = Except.error (c4Errs k) := by
    intro k hk
    match k with
    | 0 => rfl
    | 1 => rfl
    | n + 2 => omega
  have h := (c4_invokeWithRetry_backoff c4Attempts c4Errs).1 2 "answer" (by omega) rfl herr
  simpa using h

/-
Tool Registry and dispatch.  A registry maps a tool name to its
implementation (args in, observation out, or a thrown error); a name absent
from the registry corresponds to toolsByName[name] being undefined in JS.
-/
def ToolRegistry := String → Option (String → Except String String)

/-- The message of the TypeError JS raises when tool.invoke is read off an
undefined registry entry. -/
def jsUndefinedInvoke : String := "Cannot read properties of undefined"

/-
tool_node of src/src/2_research_agent.js lines 140-167: toolCalls.map over an
async callback awaited by Promise.all, the callback body wrapped in
try/catch, so every call (including one whose name is missing from the
registry, where reading tool.invoke itself throws a TypeError inside the
try) yields a ToolMessage; Promise.all reassembles the results in the
original toolCalls order, which the List.map models.
-/
def tool_node (tools : ToolRegistry) (calls : List ToolCall) : List Msg :=
  calls.map (fun c =>
    match tools c.name with
    | none => Msg.toolMsg c.name c.id ("Error: " ++ jsUndefinedInvoke)
    | some f =>
      match f c.args with
      | Except.ok obs => Msg.toolMsg c.name c.id obs
      | Except.error e => Msg.toolMsg c.name c.id ("Error: " ++ e))

/-
tool_node of the second module embedded in src/unnamed/part_003 (lines
310-323): the callback has no registry lookup guard and no try/catch, so a
missing tool (TypeError on reading .invoke of undefined) or a throwing tool
implementation rejects its promise, Promise.all rejects, and the node
propagates the exception instead of returning ToolMessages.
-/
def toolNodeUnguarded (tools : ToolRegistry) (calls : List ToolCall) :
    Except String (List Msg) :=
  calls.mapM (fun c =>
    match tools c.name with
    | none => Except.error ("TypeError: " ++ jsUndefinedInvoke)
    | some f =>
      match f c.args with
      | Except.ok obs => Except.ok (Msg.toolMsg c.name c.id obs)
      | Except.error e => Except.error e)

/-
Per-ToolCall dispatch of the supervisor loops (src/src/4_research_supervisor.js
lines 218-251 and src/unnamed/part_000 lines 267-290): an unknown name
returns an error ToolMessage, ResearchComplete short-circuits with a fixed
content (setting the stop flag), and any other tool is invoked under
try/catch with a thrown message prefixed by "Error: ".
-/
def supervisorCallMsg (tools : ToolRegistry) (c : ToolCall) : Msg :=
  match tools c.name with
  | none => Msg.toolMsg c.name c.id "Error: Tool not found"
  | some f =>
    if c.name = "ResearchComplete" then Msg.toolMsg c.name c.id "Research Completed."
    else
      match f c.args with
      | Except.ok r => Msg.toolMsg c.name c.id r
      | Except.error e => Msg.toolMsg c.name c.id ("Error: " ++ e)

/-
One iteration of the manual-selection sub-agent conductResearch in
src/src/5_full_agent_manual.js, lines 170-183, in the branch where the
selected tool exists and its result has been computed: the code pushes an
AIMessage whose single ToolCall id is built from one Date.now() reading (t1)
and then a ToolMessage whose tool_call_id is built from a second, separate
Date.now() reading (t2).
-/
def manualIterMsgs (toolName thought args result : String) (t1 t2 : Nat) : List Msg :=
  [Msg.ai thought [ToolCall.mk ("call_" ++ toString t1) toolName args],
   Msg.toolMsg toolName ("call_" ++ toString t2) result]

/-- The sub-agent registry of src/unnamed/part_003: tavily_search and
think_tool; the implementations are modelled as total string functions since
only their presence and output strings matter here. -/
def partToolRegistry : ToolRegistry := fun n =>
  if n = "tavily_search" then some (fun args => Except.ok ("Search results for: " ++ args))
  else if n = "think_tool" then some (fun args => Except.ok ("Reflection recorded: " ++ args))
  else none

/-- Claim C2, counterexample: dispatching a ToolCall whose name is absent
from the registry through the part_003 tool_node does not produce an
error-flagged ToolResult; the lookup raises a TypeError that rejects the
Promise.all, so the owning loop receives an exception and aborts. -/
theorem c2_counterexample :
    toolNodeUnguarded partToolRegistry [ToolCall.mk "call_1" "web_search" "q"] =
      Except.error ("TypeError: " ++ jsUndefinedInvoke) := by
  rfl

/-- Claim C2 as amended: in the supervisor dispatcher every ToolCall yields a
ToolResult carrying the call id — a missing tool becomes an error ToolResult
with a descriptive message and a thrown implementation becomes an error
ToolResult with the exception message — but in the part_003 tool_node a
missing or throwing tool propagates an exception to the owning loop. -/
theorem c2_dispatch_errors (tools : ToolRegistry) (c : ToolCall) :
    (∃ content, supervisorCallMsg tools c = Msg.toolMsg c.name c.id content) ∧
    (tools c.name = none →
      supervisorCallMsg tools c = Msg.toolMsg c.name c.id "Error: Tool not found") ∧
    (∀ f e, tools c.name = some f → c.name ≠ "ResearchComplete" →
      f c.args = Except.error e →
      supervisorCallMsg tools c = Msg.toolMsg c.name c.id ("Error: " ++ e)) ∧
    (∀ f e, tools c.name = some f → f c.args = Except.error e →
      toolNodeUnguarded tools [c] = Except.error e) := by
  refine ⟨?_, ?_, ?_, ?_⟩
  · cases h : tools c.name with
    | none => exact ⟨"Error: Tool not found", by simp [supervisorCallMsg, h]⟩
    | some f =>
      by_cases hrc : c.name = "ResearchComplete"
      · refine ⟨"Research Completed.", ?_⟩
        rw [hrc] at h
        simp [supervisorCallMsg, h, hrc]
      · cases hf : f c.args with
        | ok r => exact ⟨r, by simp [supervisorCallMsg, h, hrc, hf]⟩
        | error e => exact ⟨"Error: " ++ e, by simp [supervisorCallMsg, h, hrc, hf]⟩
  · intro h; simp [supervisorCallMsg, h]
  · intro f e hf hrc herr
    simp [supervisorCallMsg, hf, hrc, herr]
  · intro f e hf herr
    simp [toolNodeUnguarded, List.mapM, List.mapM.loop, hf, herr]

/-- A think_tool ToolCall used by several witnesses. -/
def thinkCall : ToolCall := ToolCall.mk "call_9" "think_tool" "plan next"

theorem c2_dispatch_errors_witness :
    (∃ content, supervisorCallMsg partToolRegistry (ToolCall.mk "c7" "nope" "x") =
        Msg.toolMsg "nope" "c7" content) ∧
    supervisorCallMsg partToolRegistry (ToolCall.mk "c7" "nope" "x") =
      Msg.toolMsg "nope" "c7" "Error: Tool not found" :=
  ⟨(c2_dispatch_errors partToolRegistry (ToolCall.mk "c7" "nope" "x")).1,
   (c2_dispatch_errors partToolRegistry (ToolCall.mk "c7" "nope" "x")).2.1 rfl⟩

/-- Claim C3, counterexample: in the manual-selection conductResearch the
assistant turn's single ToolCall id and the appended ToolResult's
tool_call_id come from two separate Date.now() readings; when the clock
ticks between them (readings 100 and 101) the ToolResult's tool_call_id is
not the id of any ToolCall of that assistant turn. -/
theorem c3_counterexample :
    manualIterMsgs "tavily_search" "looking" "coffee" "results" 100 101 =
      [Msg.ai "looking" [ToolCall.mk "call_100" "tavily_search" "coffee"],
       Msg.toolMsg "tavily_search" "call_101" "results"] ∧
    Msg.toolCallId (Msg.toolMsg "tavily_search" "call_101" "results") = "call_101" ∧
    (Msg.ai "looking" [ToolCall.mk "call_100" "tavily_search" "coffee"]).toolCalls.map
        ToolCall.id = ["call_100"] ∧
    ¬ ("call_101" ∈ ["call_100"]) := by
  refine ⟨rfl, rfl, rfl, ?_⟩
  decide

/-- Claim C3 as amended: the Promise.all tool_node dispatch appends exactly N
ToolResults, in the original ToolCall order, the i-th carrying the i-th
call's id (hence all distinct whenever the call ids are distinct); in the
manual conductResearch variant the appended ToolResult's tool_call_id is
among the assistant turn's ToolCall ids only in the case where the two
Date.now() readings coincide. -/
theorem c3_dispatch_order (tools : ToolRegistry) (calls : List ToolCall)
    (toolName thought args result : String) (t : Nat) :
    (tool_node tools calls).length = calls.length ∧
    (tool_node tools calls).map Msg.toolCallId = calls.map ToolCall.id ∧
    ((calls.map ToolCall.id).Nodup →
      ((tool_node tools calls).map Msg.toolCallId).Nodup) ∧
    Msg.toolCallId
        ((manualIterMsgs toolName thought args result t t).getLastD (Msg.human "")) ∈
      ((manualIterMsgs toolName thought args result t t).headD
        (Msg.human "")).toolCalls.map ToolCall.id := by
  have hmap : (tool_node tools calls).map Msg.toolCallId = calls.map ToolCall.id := by
    unfold tool_node
    rw [List.map_map]
    apply List.map_congr_left
    intro c _
    cases h : tools c.name with
    | none => simp [h, Msg.toolCallId]
    | some f =>
      cases hf : f c.args with
      | ok r => simp [h, hf, Msg.toolCallId]
      | error e => simp [h, hf, Msg.toolCallId]
  refine ⟨by simp [tool_node], hmap, ?_, ?_⟩
  · intro h; rw [hmap]; exact h
  · simp [manualIterMsgs, Msg.toolCallId, Msg.toolCalls]

theorem c3_dispatch_order_witness :
    (tool_node partToolRegistry [thinkCall, ToolCall.mk "call_10" "tavily_search" "sf"]).map
        Msg.toolCallId = ["call_9", "call_10"] ∧
    ((tool_node partToolRegistry [thinkCall, ToolCall.mk "call_10" "tavily_search" "sf"]).map
        Msg.toolCallId).Nodup := by
  have h := c3_dispatch_order partToolRegistry
    [thinkCall, ToolCall.mk "call_10" "tavily_search" "sf"] "t" "t" "t" "t" 0
  refine ⟨?_, h.2.2.1 (by decide)⟩
  rw [h.2.1]
  rfl

/-- A model response: content plus the tool_calls array (empty when the model
answered directly). -/
structure ModelResp where
  content : String
  tool_calls : List ToolCall
deriving DecidableEq, Repr

/-- Stand-ins for the prompt templates imported from src/src/prompts.js; the
template text is outside the orchestration core and no claim depends on it. -/
def compressSystemText : String := "compress research system prompt"

/-- Stand-in for compress_research_human_message, see compressSystemText. -/
def compressHumanText : String := "compress research human message"

/-
The findings contribution of one supervisor ToolCall in runResearch
(src/unnamed/part_000 lines 267-291): only a ConductResearch call pushes its
result (the sub-agent summary, or the caught error text) onto
researchFindings; a missing tool or ResearchComplete pushes nothing.
-/
def supervisorCallFinding (tools : ToolRegistry) (c : ToolCall) : Option String :=
  match tools c.name with
  | none => none
  | some f =>
    if c.name = "ResearchComplete" then none
    else if c.name = "ConductResearch" then
      some (match f c.args with
            | Except.ok r => r
            | Except.error e => "Error: " ++ e)
    else none

/-- Outcome of dispatching one batch of supervisor ToolCalls. -/
structure BatchRes where
  toolMessages : List Msg
  findings : List String
  stop : Bool
deriving DecidableEq, Repr

/-
One batch dispatch in runResearch (src/unnamed/part_000 lines 267-294) /
runSupervisor (src/src/4_research_supervisor.js lines 218-254):
toolCalls.map over async callbacks, awaited with Promise.all.  Promise.all
reassembles the ToolMessages in the original call order; researchFindings
.push(result) runs when each callback's awaited sub-agent resolves, so the
findings list is ordered by the completion schedule (the list of call
indices in completion order), not by call order.
-/
def supervisorBatch (tools : ToolRegistry) (calls : List ToolCall)
    (completion : List Nat) : BatchRes :=
  { toolMessages := calls.map (supervisorCallMsg tools),
    findings := completion.filterMap (fun i => (calls[i]?).bind (supervisorCallFinding tools)),
    stop := calls.any (fun c => c.name == "ResearchComplete" && (tools c.name).isSome) }

/-- Supervisor loop state: conversation log, iteration counter, accumulated
researchFindings. -/
structure SupState where
  messages : List Msg
  iterations : Nat
  findings : List String
deriving DecidableEq, Repr

/-
The while-loop of runResearch, src/unnamed/part_000 lines 242-297: guard
iterations < maxIt; push the model response; break on an empty toolCalls
array; otherwise increment iterations, dispatch the batch, append its
ToolMessages and findings, and break if ResearchComplete was among the
calls.  fuel bounds the recursion; callers pass fuel > maxIt, enough since
every recursive call increments iterations.
-/
def runResearchLoop (oracle : Nat → ModelResp) (tools : ToolRegistry)
    (completions : Nat → List Nat) (maxIt : Nat) :
    Nat → Nat → SupState → SupState
  | 0, _, st => st
  | fuel + 1, k, st =>
    if st.iterations < maxIt then
      if (oracle k).tool_calls.isEmpty then
        { st with messages := st.messages ++ [Msg.ai (oracle k).content (oracle k).tool_calls] }
      else
        if (supervisorBatch tools (oracle k).tool_calls (completions k)).stop then
          { messages := st.messages ++ [Msg.ai (oracle k).content (oracle k).tool_calls]
              ++ (supervisorBatch tools (oracle k).tool_calls (completions k)).toolMessages,
            iterations := st.iterations + 1,
            findings := st.findings
              ++ (supervisorBatch tools (oracle k).tool_calls (completions k)).findings }
        else
          runResearchLoop oracle tools completions maxIt fuel (k + 1)
            { messages := st.messages ++ [Msg.ai (oracle k).content (oracle k).tool_calls]
                ++ (supervisorBatch tools (oracle k).tool_calls (completions k)).toolMessages,
              iterations := st.iterations + 1,
              findings := st.findings
                ++ (supervisorBatch tools (oracle k).tool_calls (completions k)).findings }
    else st

/-- runResearch, src/unnamed/part_000 lines 230-300: run the supervisor loop
(max 10 iterations) from the brief and return researchFindings.join with a
blank-line separator. -/
def runResearch (oracle : Nat → ModelResp) (tools : ToolRegistry)
    (completions : Nat → List Nat) (brief : String) : String :=
  joinSep "\n\n" (runResearchLoop oracle tools completions 10 11 0
    { messages := [Msg.human brief], iterations := 0, findings := [] }).findings

/-- The log-derived aggregation printed by runSupervisor,
src/src/4_research_supervisor.js lines 269-273: filter the ConductResearch
ToolMessages out of the conversation log and join their contents. -/
def supervisorLogFindings (msgs : List Msg) : String :=
  joinSep "\n\n---\n\n" (msgs.filterMap (fun m =>
    match m with
    | Msg.toolMsg n _ c => if n = "ConductResearch" then some c else none
    | _ => none))

/-
Sequential tool execution inside the lean sub-agent while-loop,
src/src/2_research_agent_lean.js lines 82-103: tool.invoke under try/catch;
reading .invoke of an undefined registry entry throws inside the try as
well, so every call still yields a ToolMessage, with the caught message
prefixed by the literal used there.
-/
def leanExecTool (tools : ToolRegistry) (c : ToolCall) : Msg :=
  match tools c.name with
  | none => Msg.toolMsg c.name c.id ("Error executing tool: " ++ jsUndefinedInvoke)
  | some f =>
    match f c.args with
    | Except.ok r => Msg.toolMsg c.name c.id r
    | Except.error e => Msg.toolMsg c.name c.id ("Error executing tool: " ++ e)

/-- Lean sub-agent loop state; compressed is none until (unless) the
compression branch runs. -/
structure SubState where
  messages : List Msg
  iterations : Nat
  compressed : Option String
deriving DecidableEq, Repr

/-
The while-loop of run(), src/src/2_research_agent_lean.js lines 67-122:
guard toolCallIterations < maxIterations; push the response; if it carries
tool calls, increment the counter and execute them sequentially; otherwise
invoke the compression model on [compression prompt] ++ messages ++
[human message] and break.  Note the loop body compresses only in the
empty-toolCalls branch; when the guard fails the function ends without
compressing (lines 124-126 only log a warning).
-/
def leanRunLoop (oracle : Nat → ModelResp) (tools : ToolRegistry)
    (compressOracle : List Msg → String) (maxIt : Nat) :
    Nat → Nat → SubState → SubState
  | 0, _, st => st
  | fuel + 1, k, st =>
    if st.iterations < maxIt then
      if (oracle k).tool_calls.isEmpty then
        { messages := st.messages ++ [Msg.ai (oracle k).content (oracle k).tool_calls],
          iterations := st.iterations,
          compressed := some (compressOracle (Msg.human compressSystemText ::
            (st.messages ++ [Msg.ai (oracle k).content (oracle k).tool_calls]) ++
            [Msg.human compressHumanText])) }
      else
        leanRunLoop oracle tools compressOracle maxIt fuel (k + 1)
          { messages := st.messages ++ [Msg.ai (oracle k).content (oracle k).tool_calls]
              ++ (oracle k).tool_calls.map (leanExecTool tools),
            iterations := st.iterations + 1,
            compressed := st.compressed }
    else st

/-- run() of src/src/2_research_agent_lean.js: the loop with max 5
iterations, starting from the topic as the sole user turn. -/
def leanRun (oracle : Nat → ModelResp) (tools : ToolRegistry)
    (compressOracle : List Msg → String) (topic : String) : SubState :=
  leanRunLoop oracle tools compressOracle 5 6 0
    { messages := [Msg.human topic], iterations := 0, compressed := none }

/-
Sequential tool execution inside conductResearch
(src/src/4_research_supervisor.js lines 110-125): try/catch with the caught
message prefixed "Error: "; a missing tool also throws inside the try.
-/
def supExecTool (tools : ToolRegistry) (c : ToolCall) : Msg :=
  match tools c.name with
  | none => Msg.toolMsg c.name c.id ("Error: " ++ jsUndefinedInvoke)
  | some f =>
    match f c.args with
    | Except.ok r => Msg.toolMsg c.name c.id r
    | Except.error e => Msg.toolMsg c.name c.id ("Error: " ++ e)

/-
The while-loop of conductResearch, src/src/4_research_supervisor.js lines
92-126: guard iterations < maxIterations; push the response; break on an
empty toolCalls array; otherwise increment iterations and execute the calls
sequentially.  Unlike the lean run() variant, compression happens after the
loop on every path (lines 128-148).
-/
def conductLoop (oracle : Nat → ModelResp) (tools : ToolRegistry) (maxIt : Nat) :
    Nat → Nat → List Msg → Nat → List Msg × Nat
  | 0, _, msgs, iters => (msgs, iters)
  | fuel + 1, k, msgs, iters =>
    if iters < maxIt then
      if (oracle k).tool_calls.isEmpty then
        (msgs ++ [Msg.ai (oracle k).content (oracle k).tool_calls], iters)
      else
        conductLoop oracle tools maxIt fuel (k + 1)
          (msgs ++ [Msg.ai (oracle k).content (oracle k).tool_calls]
            ++ (oracle k).tool_calls.map (supExecTool tools)) (iters + 1)
    else (msgs, iters)

/-- Result of conductResearch: the final loop log, the iteration count, the
message list handed to the compression model, and its response. -/
structure SubAgentRes where
  messages : List Msg
  iterations : Nat
  compressInput : List Msg
  summary : String
deriving DecidableEq, Repr

/-- conductResearch, src/src/4_research_supervisor.js lines 75-149: run the
bounded loop (max 5) from the topic, then unconditionally invoke the
compression model on [system compression prompt] ++ messages ++
[human message] and return its content. -/
def conductResearch (oracle : Nat → ModelResp) (tools : ToolRegistry)
    (compressOracle : List Msg → String) (topic : String) : SubAgentRes :=
  { messages := (conductLoop oracle tools 5 6 0 [Msg.human topic] 0).1,
    iterations := (conductLoop oracle tools 5 6 0 [Msg.human topic] 0).2,
    compressInput := Msg.system compressSystemText ::
      (conductLoop oracle tools 5 6 0 [Msg.human topic] 0).1 ++
      [Msg.human compressHumanText],
    summary := compressOracle (Msg.system compressSystemText ::
      (conductLoop oracle tools 5 6 0 [Msg.human topic] 0).1 ++
      [Msg.human compressHumanText]) }

theorem leanRunLoop_le (oracle : Nat → ModelResp) (tools : ToolRegistry)
    (compressOracle : List Msg → String) (maxIt : Nat) :
    ∀ fuel k st, st.iterations ≤
      (leanRunLoop oracle tools compressOracle maxIt fuel k st).iterations := by
  intro fuel
  induction fuel with
  | zero => intro k st; exact Nat.le_refl _
  | succ fuel ih =>
    intro k st
    simp only [leanRunLoop]
    by_cases h : st.iterations < maxIt
    · rw [if_pos h]
      by_cases he : (oracle k).tool_calls.isEmpty = true
      · rw [if_pos he]
      · rw [if_neg he]
        exact le_trans (Nat.le_succ _) (ih (k + 1)
          { messages := st.messages ++ [Msg.ai (oracle k).content (oracle k).tool_calls]
              ++ (oracle k).tool_calls.map (leanExecTool tools),
            iterations := st.iterations + 1,
            compressed := st.compressed })
    · rw [if_neg h]

theorem leanRunLoop_exit (oracle : Nat → ModelResp) (tools : ToolRegistry)
    (compressOracle : List Msg → String) (maxIt : Nat) :
    ∀ fuel k st, maxIt ≤ st.iterations →
      leanRunLoop oracle tools compressOracle maxIt fuel k st = st := by
  intro fuel
  cases fuel with
  | zero => intro k st h; rfl
  | succ fuel =>
    intro k st h
    simp only [leanRunLoop]
    rw [if_neg (Nat.not_lt.mpr h)]

theorem runResearchLoop_le (oracle : Nat → ModelResp) (tools : ToolRegistry)
    (completions : Nat → List Nat) (maxIt : Nat) :
    ∀ fuel k st, st.iterations ≤
      (runResearchLoop oracle tools completions maxIt fuel k st).iterations := by
  intro fuel
  induction fuel with
  | zero => intro k st; exact Nat.le_refl _
  | succ fuel ih =>
    intro k st
    simp only [runResearchLoop]
    by_cases h : st.iterations < maxIt
    · rw [if_pos h]
      by_cases he : (oracle k).tool_calls.isEmpty = true
      · rw [if_pos he]
      · rw [if_neg he]
        by_cases hs : (supervisorBatch tools (oracle k).tool_calls (completions k)).stop = true
        · rw [if_pos hs]; exact Nat.le_succ _
        · rw [if_neg hs]
          exact le_trans (Nat.le_succ _) (ih (k + 1)
            { messages := st.messages ++ [Msg.ai (oracle k).content (oracle k).tool_calls]
                ++ (supervisorBatch tools (oracle k).tool_calls (completions k)).toolMessages,
              iterations := st.iterations + 1,
              findings := st.findings
                ++ (supervisorBatch tools (oracle k).tool_calls (completions k)).findings })
    · rw [if_neg h]

theorem runResearchLoop_exit (oracle : Nat → ModelResp) (tools : ToolRegistry)
    (completions : Nat → List Nat) (maxIt : Nat) :
    ∀ fuel k st, maxIt ≤ st.iterations →
      runResearchLoop oracle tools completions maxIt fuel k st = st := by
  intro fuel
  cases fuel with
  | zero => intro k st h; rfl
  | succ fuel =>
    intro k st h
    simp only [runResearchLoop]
    rw [if_neg (Nat.not_lt.mpr h)]

/-- Claim C5: in the lean sub-agent loop (default max 5) and the supervisor
loop (default max 10) the iteration counter never decreases across decision
cycles, and whenever the counter has reached the maximum the loop leaves its
looping state at once — the guard fails, no further model invocation changes
the state — regardless of the model oracle. -/
theorem c5_budget_monotone (oracle : Nat → ModelResp) (tools : ToolRegistry)
    (compressOracle : List Msg → String) (completions : Nat → List Nat)
    (fuel k : Nat) (st : SubState) (sst : SupState) :
    st.iterations ≤ (leanRunLoop oracle tools compressOracle 5 fuel k st).iterations ∧
    (5 ≤ st.iterations → leanRunLoop oracle tools compressOracle 5 fuel k st = st) ∧
    sst.iterations ≤ (runResearchLoop oracle tools completions 10 fuel k sst).iterations ∧
    (10 ≤ sst.iterations → runResearchLoop oracle tools completions 10 fuel k sst = sst) :=
  ⟨leanRunLoop_le oracle tools compressOracle 5 fuel k st,
   leanRunLoop_exit oracle tools compressOracle 5 fuel k st,
   runResearchLoop_le oracle tools completions 10 fuel k sst,
   runResearchLoop_exit oracle tools completions 10 fuel k sst⟩

/-- Model oracle that always asks for one think_tool call. -/
def oracleAlwaysThink : Nat → ModelResp :=
  fun _ => { content := "", tool_calls := [thinkCall] }

/-- Concrete compression model stand-in. -/
def constSummary : List Msg → String := fun _ => "SUMMARY"

theorem c5_budget_monotone_witness :
    leanRunLoop oracleAlwaysThink partToolRegistry constSummary 5 6 0
        { messages := [], iterations := 5, compressed := none } =
      { messages := [], iterations := 5, compressed := none } ∧
    runResearchLoop oracleAlwaysThink partToolRegistry (fun _ => [0]) 10 11 0
        { messages := [], iterations := 10, findings := [] } =
      { messages := [], iterations := 10, findings := [] } := by
  have h := c5_budget_monotone oracleAlwaysThink partToolRegistry constSummary
    (fun _ => [0]) 6 0
    { messages := [], iterations := 5, compressed := none }
    { messages := [], iterations := 10, findings := [] }
  have h2 := c5_budget_monotone oracleAlwaysThink partToolRegistry constSummary
    (fun _ => [0]) 11 0
    { messages := [], iterations := 5, compressed := none }
    { messages := [], iterations := 10, findings := [] }
  exact ⟨h.2.1 (Nat.le_refl 5), h2.2.2.2 (Nat.le_refl 10)⟩

theorem conductLoop_exhausts (oracle : Nat → ModelResp) (tools : ToolRegistry)
    (maxIt : Nat) (halways : ∀ j, (oracle j).tool_calls ≠ []) :
    ∀ fuel k msgs iters, iters ≤ maxIt → maxIt - iters < fuel →
      (conductLoop oracle tools maxIt fuel k msgs iters).2 = maxIt := by
  intro fuel
  induction fuel with
  | zero => intro k msgs iters hle hf; omega
  | succ fuel ih =>
    intro k msgs iters hle hf
    simp only [conductLoop]
    by_cases h : iters < maxIt
    · rw [if_pos h]
      have he : (oracle k).tool_calls.isEmpty ≠ true := by
        simp [List.isEmpty_iff]
        exact halways k
      rw [if_neg he]
      exact ih (k + 1) _ (iters + 1) (by omega) (by omega)
    · rw [if_neg h]
      omega

/-- Claim C6 as amended: in conductResearch both termination paths — a
response with no ToolCalls and budget exhaustion — are followed by the
compression call over the full accumulated log (the compression is
unconditional after the loop), so an always-delegating model still yields a
summary after exactly 5 iterations; in the lean run() variant only the
no-ToolCalls branch compresses, and budget exhaustion ends the loop with no
compressed report. -/
theorem c6_compress_paths (o1 o2 : Nat → ModelResp) (tools : ToolRegistry)
    (compressOracle : List Msg → String) (topic : String) (k fuel : Nat) (st : SubState) :
    ((∀ j, (o1 j).tool_calls ≠ []) →
      (conductResearch o1 tools compressOracle topic).iterations = 5 ∧
      (conductResearch o1 tools compressOracle topic).summary =
        compressOracle (Msg.system compressSystemText ::
          (conductResearch o1 tools compressOracle topic).messages ++
          [Msg.human compressHumanText])) ∧
    (st.iterations < 5 → (o2 k).tool_calls = [] →
      (leanRunLoop o2 tools compressOracle 5 (fuel + 1) k st).compressed =
        some (compressOracle (Msg.human compressSystemText ::
          (st.messages ++ [Msg.ai (o2 k).content (o2 k).tool_calls]) ++
          [Msg.human compressHumanText]))) := by
  constructor
  · intro halways
    refine ⟨?_, rfl⟩
    exact conductLoop_exhausts o1 tools 5 halways 6 0 [Msg.human topic] 0
      (by omega) (by omega)
  · intro hlt hempty
    simp only [leanRunLoop]
    rw [if_pos hlt]
    have he : (o2 k).tool_calls.isEmpty = true := by
      simp [List.isEmpty_iff, hempty]
    rw [if_pos he]

theorem c6_compress_paths_witness :
    (conductResearch oracleAlwaysThink partToolRegistry constSummary "coffee").iterations = 5 ∧
    (conductResearch oracleAlwaysThink partToolRegistry constSummary "coffee").summary =
      constSummary (Msg.system compressSystemText ::
        (conductResearch oracleAlwaysThink partToolRegistry constSummary "coffee").messages ++
        [Msg.human compressHumanText]) :=
  (c6_compress_paths oracleAlwaysThink oracleAlwaysThink partToolRegistry constSummary
    "coffee" 0 0 { messages := [], iterations := 0, compressed := none }).1
    (fun j => by simp [oracleAlwaysThink])

/-- Claim C6, counterexample: running the lean sub-agent run() with a model
that requests a tool on every cycle exhausts the budget (5 iterations), and
the loop ends with no compressed report — budget exhaustion does not reach a
Compressing step in src/src/2_research_agent_lean.js (lines 124-126 only log
a warning). -/
theorem c6_counterexample :
    (leanRun oracleAlwaysThink partToolRegistry constSummary "topic").compressed = none ∧
    (leanRun oracleAlwaysThink partToolRegistry constSummary "topic").iterations = 5 := by
  constructor <;> rfl

theorem supervisorCallMsg_id (tools : ToolRegistry) (c : ToolCall) :
    Msg.toolCallId (supervisorCallMsg tools c) = c.id := by
  cases h : tools c.name with
  | none => simp [supervisorCallMsg, h, Msg.toolCallId]
  | some f =>
    by_cases hrc : c.name = "ResearchComplete"
    · rw [hrc] at h
      simp [supervisorCallMsg, h, hrc, Msg.toolCallId]
    · cases hf : f c.args with
      | ok r => simp [supervisorCallMsg, h, hrc, hf, Msg.toolCallId]
      | error e => simp [supervisorCallMsg, h, hrc, hf, Msg.toolCallId]

theorem range_filterMap_getElem {α β : Type} (l : List α) (f : α → Option β) :
    (List.range l.length).filterMap (fun i => (l[i]?).bind f) = l.filterMap f := by
  induction l with
  | nil => rfl
  | cons a l ih =>
    show (List.range (l.length + 1)).filterMap (fun i => ((a :: l)[i]?).bind f) = _
    rw [List.range_succ_eq_map, List.filterMap_cons, List.filterMap_map]
    have hcomp : ((fun i => ((a :: l)[i]?).bind f) ∘ Nat.succ) =
        (fun i => (l[i]?).bind f) := by
      funext i
      simp
    rw [hcomp, ih]
    cases hfa : f a with
    | none => simp [List.filterMap_cons, hfa]
    | some b => simp [List.filterMap_cons, hfa]

/-- Claim C1 as amended: within one supervisor batch the ToolResult turns
appended to the log are in delegation order (the i-th ToolMessage carries
the i-th ToolCall's id) and do not depend on the completion schedule, so
runSupervisor's log-derived aggregation is deterministic; but the findings
list runResearch accumulates — and whose join it returns — is ordered by
sub-agent completion order, a permutation of the delegation-ordered findings
rather than delegation order itself. -/
theorem c1_aggregation_order (tools : ToolRegistry) (calls : List ToolCall)
    (completion completion2 : List Nat) :
    ((supervisorBatch tools calls completion).toolMessages.map Msg.toolCallId =
      calls.map ToolCall.id) ∧
    ((supervisorBatch tools calls completion).toolMessages =
      (supervisorBatch tools calls completion2).toolMessages) ∧
    (completion.Perm (List.range calls.length) →
      (supervisorBatch tools calls completion).findings.Perm
        (calls.filterMap (supervisorCallFinding tools))) := by
  refine ⟨?_, rfl, ?_⟩
  · show (calls.map (supervisorCallMsg tools)).map Msg.toolCallId = calls.map ToolCall.id
    rw [List.map_map]
    apply List.map_congr_left
    intro c _
    exact supervisorCallMsg_id tools c
  · intro hperm
    show (completion.filterMap (fun i => (calls[i]?).bind (supervisorCallFinding tools))).Perm _
    have h1 := hperm.filterMap (fun i => (calls[i]?).bind (supervisorCallFinding tools))
    rw [range_filterMap_getElem calls (supervisorCallFinding tools)] at h1
    exact h1

/-- The two delegations of the C1 scenario, in delegation order A then B. -/
def c1Calls : List ToolCall :=
  [ToolCall.mk "idA" "ConductResearch" "topic A",
   ToolCall.mk "idB" "ConductResearch" "topic B"]

/-- Supervisor model oracle: first Deciding cycle delegates A and B, second
cycle answers with no tool calls. -/
def c1Oracle : Nat → ModelResp :=
  fun k => if k = 0 then { content := "", tool_calls := c1Calls }
           else { content := "done", tool_calls := [] }

/-- Supervisor registry: only ConductResearch, whose sub-agent returns a
findings string determined by the topic. -/
def c1Tools : ToolRegistry := fun n =>
  if n = "ConductResearch" then some (fun args => Except.ok ("Findings for " ++ args))
  else none

/-- Completion schedule: the second delegation (index 1) finishes before the
first (index 0). -/
def c1Completions : Nat → List Nat := fun _ => [1, 0]

/-- Claim C1, counterexample: with delegations issued in order [A, B] that
complete in order [B, A], the findings string runResearch returns lists B
before A — completion order, not the delegation order the claim asserts. -/
theorem c1_counterexample :
    runResearch c1Oracle c1Tools c1Completions "brief" =
      "Findings for topic B\n\nFindings for topic A" ∧
    joinSep "\n\n" (c1Calls.filterMap (supervisorCallFinding c1Tools)) =
      "Findings for topic A\n\nFindings for topic B" ∧
    runResearch c1Oracle c1Tools c1Completions "brief" ≠
      joinSep "\n\n" (c1Calls.filterMap (supervisorCallFinding c1Tools)) := by
  have h1 : runResearch c1Oracle c1Tools c1Completions "brief" =
      "Findings for topic B\n\nFindings for topic A" := rfl
  have h2 : joinSep "\n\n" (c1Calls.filterMap (supervisorCallFinding c1Tools)) =
      "Findings for topic A\n\nFindings for topic B" := rfl
  refine ⟨h1, h2, ?_⟩
  rw [h1, h2]
  decide

theorem c1_aggregation_order_witness :
    (supervisorBatch c1Tools c1Calls [1, 0]).findings.Perm
      (c1Calls.filterMap (supervisorCallFinding c1Tools)) :=
  (c1_aggregation_order c1Tools c1Calls [1, 0] [1, 0]).2.2 (by decide)

/-- The synthetic continuity note llm_call inserts when reducing context,
src/src/2_research_agent.js line 121. -/
def continuityNote : Msg :=
  Msg.ai "I have performed several searches and refined my plan. I am continuing the research now." []

/-
The context reduction of llm_call, src/src/2_research_agent.js lines
112-126: when the log holds more than 6 turns, the model is shown
allMessages[0], the synthetic continuity note, and the last 4 turns
(slice(-4)); otherwise the whole log.  The reduction is only the view handed
to the model: the state update of llm_call appends the response to the full
log (the researcher_messages reducer concatenates), never to the reduced
view.
-/
def contextView (allMessages : List Msg) : List Msg :=
  if allMessages.length > 6 then
    allMessages.take 1 ++ [continuityNote] ++ allMessages.drop (allMessages.length - 4)
  else allMessages

/-- The state update of one llm_call cycle: the graph reducer concatenates
the response onto the stored full log (src/src/2_research_agent.js lines
134-137 together with the reducer at lines 16-19). -/
def llm_call_update (stateMessages : List Msg) (result : Msg) : List Msg :=
  stateMessages ++ [result]

/-- truncateContent, src/src/2_research_agent.js lines 53-56 (JS string
length counts UTF-16 units; contents here are ASCII so characters agree). -/
def truncateContent (content : String) (maxChars : Nat) : String :=
  if content.length ≤ maxChars then content
  else String.mk (content.data.take maxChars) ++ "\n\n[Truncated...]"

/-- The joined tool-result contents compress_research builds from the full
researcher_messages, src/src/2_research_agent.js lines 171-174. -/
def toolResultsOf (msgs : List Msg) : String :=
  joinSep "\n\n" (msgs.filterMap (fun m =>
    match m with
    | Msg.toolMsg _ _ c => some c
    | _ => none))

/-- Output of compress_research, src/src/2_research_agent.js lines 169-188:
the messages handed to the compression model and the raw_notes update (the
untruncated join of all tool-result contents of the full log). -/
structure CompressOut where
  modelInput : List Msg
  raw_notes : List String
deriving DecidableEq, Repr

/-- compress_research over the full state log. -/
def compress_research (topic : String) (msgs : List Msg) : CompressOut :=
  { modelInput := [Msg.system compressSystemText,
      Msg.human ("Topic: " ++ topic ++ "\n\nFindings:\n"
        ++ truncateContent (toolResultsOf msgs) 3000)],
    raw_notes := [toolResultsOf msgs] }

/-- A tool-result content is an element of the filterMap feeding the joins. -/
theorem toolContent_mem (msgs : List Msg) (m : Msg) (hm : m ∈ msgs)
    (htool : m.isToolMsg = true) :
    m.content ∈ msgs.filterMap (fun x =>
      match x with
      | Msg.toolMsg _ _ c => some c
      | _ => none) := by
  apply List.mem_filterMap.mpr
  refine ⟨m, hm, ?_⟩
  cases m with
  | toolMsg n i c => rfl
  | human c => cases htool
  | system c => cases htool
  | ai c tcs => cases htool

/-- Claim C7: when the log exceeds the 6-turn threshold the Deciding view is
exactly first turn + synthetic continuity note + most recent 4 turns (a
6-turn view); the per-cycle state update appends the response to the full
log, so the reduction applied for Deciding is never stored; and the
Compressing step consumes the full log — every tool-result turn of the log,
including ones outside the recent window, reappears verbatim inside the
string compress_research records as raw notes and feeds (truncated) to the
compression model. -/
theorem c7_context_reduction (msgs : List Msg) (r : Msg) (topic : String) (m : Msg) :
    (msgs.length > 6 →
      contextView msgs = msgs.take 1 ++ [continuityNote] ++ msgs.drop (msgs.length - 4) ∧
      (contextView msgs).length = 6) ∧
    llm_call_update msgs r = msgs ++ [r] ∧
    (compress_research topic msgs).raw_notes = [toolResultsOf msgs] ∧
    (m ∈ msgs → m.isToolMsg = true →
      ∃ p s, toolResultsOf msgs = p ++ m.content ++ s) := by
  refine ⟨?_, rfl, rfl, ?_⟩
  · intro hlen
    constructor
    · simp [contextView, hlen]
    · have h1 : (msgs.take 1).length = 1 := by
        rw [List.length_take]
        omega
      have h4 : (msgs.drop (msgs.length - 4)).length = 4 := by
        rw [List.length_drop]
        omega
      simp [contextView, hlen, h1, h4]
  · intro hm htool
    exact joinSep_split "\n\n" _ m.content (toolContent_mem msgs m hm htool)

/-- An 8-turn log whose third turn is a tool result outside the recent
window shown to the model. -/
def c7Log : List Msg :=
  [Msg.human "Research best coffee shops in SF by quality.",
   Msg.ai "searching" [ToolCall.mk "call_1" "tavily_search" "sf coffee"],
   Msg.toolMsg "tavily_search" "call_1" "Ritual Coffee has the best beans.",
   Msg.ai "thinking" [ToolCall.mk "call_2" "think_tool" "assess"],
   Msg.toolMsg "think_tool" "call_2" "Plan updated.",
   Msg.ai "searching again" [ToolCall.mk "call_3" "tavily_search" "sf quality"],
   Msg.toolMsg "tavily_search" "call_3" "Sightglass is also excellent.",
   Msg.ai "done" []]

theorem c7_context_reduction_witness :
    contextView c7Log = c7Log.take 1 ++ [continuityNote] ++ c7Log.drop (c7Log.length - 4) ∧
    (contextView c7Log).length = 6 ∧
    (∃ p s, toolResultsOf c7Log = p ++ "Ritual Coffee has the best beans." ++ s) := by
  have h := c7_context_reduction c7Log (Msg.ai "next" []) "coffee"
    (Msg.toolMsg "tavily_search" "call_1" "Ritual Coffee has the best beans.")
  have hlen : c7Log.length > 6 := by decide
  refine ⟨(h.1 hlen).1, (h.1 hlen).2, ?_⟩
  exact h.2.2.2 (by decide) rfl

/-- The raw notes built by compressResearch in src/unnamed/part_001 lines
240-246: contents of the tool and ai turns of the full log, joined with a
newline. -/
def rawNotesPart1 (msgs : List Msg) : String :=
  joinSep "\n" (msgs.filterMap (fun m =>
    match m with
    | Msg.toolMsg _ _ c => some c
    | Msg.ai c _ => some c
    | _ => none))

/-- Claim C9: the raw_notes string a sub-agent's compression step records
preserves its source material verbatim — the content of every tool-result
turn of the conversation log is an exact substring of the raw notes, in both
the compress_research variant (tool contents joined with a blank line) and
the part_001 compressResearch variant (tool and ai contents joined with a
newline). -/
theorem c9_raw_notes_verbatim (msgs : List Msg) (m : Msg) (hm : m ∈ msgs)
    (htool : m.isToolMsg = true) :
    (∃ p s, toolResultsOf msgs = p ++ m.content ++ s) ∧
    (∃ p s, rawNotesPart1 msgs = p ++ m.content ++ s) := by
  constructor
  · exact joinSep_split "\n\n" _ m.content (toolContent_mem msgs m hm htool)
  · apply joinSep_split "\n"
    apply List.mem_filterMap.mpr
    refine ⟨m, hm, ?_⟩
    cases m with
    | toolMsg n i c => rfl
    | human c => cases htool
    | system c => cases htool
    | ai c tcs => cases htool

theorem c9_raw_notes_verbatim_witness :
    (∃ p s, toolResultsOf c7Log = p ++ "Sightglass is also excellent." ++ s) ∧
    (∃ p s, rawNotesPart1 c7Log = p ++ "Sightglass is also excellent." ++ s) :=
  c9_raw_notes_verbatim c7Log
    (Msg.toolMsg "tavily_search" "call_3" "Sightglass is also excellent.")
    (by decide) rfl
/-- Structured clarification response, the schema of
src/src/1_scoping_lean.js lines 28-32. -/
structure ClarifyResp where
  need_clarification : Bool
  question : String
  verification : String
deriving DecidableEq, Repr

/-- What a clarification cycle did with control flow. -/
inductive CycleOutcome where
  | asked
  | advanced (briefInput : String)
  | spun
deriving DecidableEq, Repr

/-- The role-labelled line getBufferString renders for one turn. -/
def roleLine : Msg → String
  | Msg.human c => "Human: " ++ c
  | Msg.system c => "System: " ++ c
  | Msg.ai c _ => "AI: " ++ c
  | Msg.toolMsg _ _ c => "Tool: " ++ c

/-- getBufferString over the log, used to fill the prompt placeholders. -/
def bufferString (msgs : List Msg) : String :=
  joinSep "\n" (msgs.map roleLine)

/-
One iteration of the clarification while-loop, src/src/1_scoping_lean.js
lines 20-63: messageHistory is computed from the current log at the top of
the iteration; if need_clarification, the question is appended as an
assistant turn and the user's answer as a user turn and the loop continues;
else if verification is a non-empty (truthy) string, it is printed — not
appended — and the brief prompt is built from the messageHistory of this
iteration before the loop breaks; otherwise nothing is appended and the
loop re-runs on the identical log.
-/
def scopingCycle (resp : ClarifyResp) (answer : String) (msgs : List Msg) :
    List Msg × CycleOutcome :=
  if resp.need_clarification then
    (msgs ++ [Msg.ai resp.question [], Msg.human answer], CycleOutcome.asked)
  else if resp.verification ≠ "" then
    (msgs, CycleOutcome.advanced (bufferString msgs))
  else
    (msgs, CycleOutcome.spun)

/-- A response with need_clarification false and a non-empty verification. -/
def c8Resp : ClarifyResp :=
  { need_clarification := false, question := "",
    verification := "I will research SF coffee shops." }

/-- The one-turn log of the C8 scenario. -/
def c8Log : List Msg :=
  [Msg.human "I want to research coffee shops in San Francisco."]

/-- Claim C8, counterexample: a cycle whose response has need_clarification
false and verification non-empty advances, but the verification message is
not appended to the conversation log — the log is unchanged, contains no
assistant turn with the verification text, and the Brief Synthesizer input
is built from the log without it. -/
theorem c8_counterexample :
    scopingCycle c8Resp "unused" c8Log =
      (c8Log, CycleOutcome.advanced
        "Human: I want to research coffee shops in San Francisco.") ∧
    ¬ (Msg.ai "I will research SF coffee shops." [] ∈
        (scopingCycle c8Resp "unused" c8Log).1) := by
  constructor
  · rfl
  · decide

/-- Each turn's role line begins with a role label and ends with the turn's
content. -/
theorem roleLine_split (m : Msg) : ∃ pre, roleLine m = pre ++ m.content := by
  cases m with
  | human c => exact ⟨"Human: ", rfl⟩
  | system c => exact ⟨"System: ", rfl⟩
  | ai c tcs => exact ⟨"AI: ", rfl⟩
  | toolMsg n i c => exact ⟨"Tool: ", rfl⟩

/-- Claim C8 as amended: if the structured response has need_clarification
true, the question is appended as an assistant turn and the user's answer as
a user turn before the next model invocation; otherwise the stage advances
with the verification message only displayed, never appended, and the Brief
Synthesizer's input is built from the accumulated log as it stood at the top
of the cycle — every prior turn's content reappears in it verbatim, the
verification does not. -/
theorem c8_clarification_cycle (resp : ClarifyResp) (answer : String) (msgs : List Msg) :
    (resp.need_clarification = true →
      scopingCycle resp answer msgs =
        (msgs ++ [Msg.ai resp.question [], Msg.human answer], CycleOutcome.asked)) ∧
    (resp.need_clarification = false → resp.verification ≠ "" →
      scopingCycle resp answer msgs = (msgs, CycleOutcome.advanced (bufferString msgs))) ∧
    (∀ m, m ∈ msgs → ∃ p s, bufferString msgs = p ++ m.content ++ s) := by
  refine ⟨?_, ?_, ?_⟩
  · intro h; simp [scopingCycle, h]
  · intro h hv; simp [scopingCycle, h, hv]
  · intro m hm
    have hmem : roleLine m ∈ msgs.map roleLine := List.mem_map_of_mem roleLine hm
    obtain ⟨p, s, hps⟩ := joinSep_split "\n" _ _ hmem
    obtain ⟨pre, hpre⟩ := roleLine_split m
    refine ⟨p ++ pre, s, ?_⟩
    rw [bufferString, hps, hpre, strAppendAssoc p pre m.content]

theorem c8_clarification_cycle_witness :
    scopingCycle c8Resp "unused" c8Log =
      (c8Log, CycleOutcome.advanced (bufferString c8Log)) ∧
    (∃ p s, bufferString c8Log =
      p ++ "I want to research coffee shops in San Francisco." ++ s) := by
  have h := c8_clarification_cycle c8Resp "unused" c8Log
  refine ⟨h.2.1 rfl (by decide), ?_⟩
  exact h.2.2 (Msg.human "I want to research coffee shops in San Francisco.") (by decide)

/-- Claim C10: a lean-scoping cycle whose response has need_clarification
false and an empty verification string takes neither branch: no turn is
appended and the state is unchanged, so the next model invocation sees the
identical conversation; and the control flow leaves the loop (advances) only
with need_clarification false and a non-empty verification, while the
question/answer progress path occurs exactly when need_clarification is
true. -/
theorem c10_scoping_spin (resp : ClarifyResp) (answer : String) (msgs : List Msg) :
    (resp.need_clarification = false → resp.verification = "" →
      scopingCycle resp answer msgs = (msgs, CycleOutcome.spun)) ∧
    (∀ b, (scopingCycle resp answer msgs).2 = CycleOutcome.advanced b →
      resp.need_clarification = false ∧ resp.verification ≠ "") ∧
    ((scopingCycle resp answer msgs).2 = CycleOutcome.asked ↔
      resp.need_clarification = true) := by
  refine ⟨?_, ?_, ?_⟩
  · intro h hv; simp [scopingCycle, h, hv]
  · intro b hb
    by_cases h : resp.need_clarification
    · simp [scopingCycle, h] at hb
    · by_cases hv : resp.verification = ""
      · simp [scopingCycle, h, hv] at hb
      · exact ⟨by simpa using h, hv⟩
  · constructor
    · intro hb
      by_cases h : resp.need_clarification
      · simpa using h
      · by_cases hv : resp.verification = "" <;> simp [scopingCycle, h, hv] at hb
    · intro h
      simp [scopingCycle, h]

/-- A response with need_clarification false and empty verification. -/
def c10Resp : ClarifyResp :=
  { need_clarification := false, question := "", verification := "" }

theorem c10_scoping_spin_witness :
    scopingCycle c10Resp "unused" c8Log = (c8Log, CycleOutcome.spun) :=
  (c10_scoping_spin c10Resp "unused" c8Log).1 rfl rfl
